import Mathlib

/-!
Verification of the RAG pipeline of the Portfolio-Backend repository.

This file gives a shallow embedding, in Lean 4, of the core retrieval /
answer pipeline of the repository (content chunking, cosine-similarity
search, confidence scoring, the two-tier embedding cache and the query
cache), translated from the Python sources:

  * `ai_services/embedding_service.py`   (`EmbeddingService`)
  * `ai_services/optimized_rag_service.py` (`OptimizedRAGService`)
  * `ai_services/rag_service.py`         (`RAGService`)
  * `ai_services/cache_service.py`       (`CacheService`)
  * `ai_services/content_processor.py`   (`ContentProcessor`)
  * `ai_services/models.py`              (Django models)

Modelling conventions:

  * Python floats are modelled as exact numbers: `ℝ` where square roots
    appear (cosine similarity) and `ℚ` where all arithmetic is rational
    (confidence scoring).  Machine rounding of IEEE floats is not modelled.
  * The external OpenAI APIs, the Django `cache` (Redis) and the database
    are modelled as explicit parameters / state threaded through the
    functions; network calls become `Except`-valued oracles.
  * `tiktoken`'s `cl100k_base` tokenizer is an external dependency; it is
    modelled as an abstract `Tokenizer` (encode/decode with the round-trip
    and non-emptiness laws the real tokenizer satisfies), together with a
    concrete character-level instance `charTok` used for closed witnesses
    and counterexamples.
  * `hashlib.md5` and Python's builtin `hash` are external; they are
    passed as function parameters, with a concrete injective model used
    for closed statements.
-/

/-! ## Vector arithmetic

Translated from `OptimizedRAGService._cosine_similarity` /
`RAGService._cosine_similarity` (numpy `dot` and `linalg.norm`) and the
vectorised batch computation in
`OptimizedRAGService._batch_calculate_similarities`. -/

/-- Model of `np.dot` on two equal-length vectors (for unequal lengths numpy would
raise; the code only calls this on equal-length vectors, and `zipWith`
truncates, which is never exercised there). -/
def dotl (a b : List ℝ) : ℝ := (List.zipWith (· * ·) a b).sum

/-- Model of `np.linalg.norm`: the Euclidean norm. -/
noncomputable def norml (v : List ℝ) : ℝ := Real.sqrt (dotl v v)

/-- Translation of `RAGService._cosine_similarity` and `OptimizedRAGService._cosine_similarity`:
`dot(a,b)/(‖a‖·‖b‖)`, returning `0.0` when either norm is zero
(`if norm_a == 0 or norm_b == 0: return 0.0`). -/
noncomputable def cosine_similarity (a b : List ℝ) : ℝ :=
  if norml a = 0 ∨ norml b = 0 then 0 else dotl a b / (norml a * norml b)

theorem dotl_comm (a b : List ℝ) : dotl a b = dotl b a := by
  unfold dotl
  induction a generalizing b with
  | nil => cases b <;> simp
  | cons x xs ih =>
    cases b with
    | nil => simp
    | cons y ys => simp [List.zipWith, ih, mul_comm]

theorem dotl_self_nonneg (a : List ℝ) : 0 ≤ dotl a a := by
  unfold dotl
  induction a with
  | nil => simp
  | cons x xs ih =>
    simp only [List.zipWith, List.sum_cons]
    have := mul_self_nonneg x
    linarith

theorem norml_nonneg (a : List ℝ) : 0 ≤ norml a := Real.sqrt_nonneg _

theorem norml_zero_of_all_zero {a : List ℝ} (h : ∀ x ∈ a, x = 0) : norml a = 0 := by
  have : dotl a a = 0 := by
    unfold dotl
    induction a with
    | nil => simp
    | cons x xs ih =>
      have hx : x = 0 := h x (by simp)
      simp only [List.zipWith, List.sum_cons, hx]
      rw [ih (fun y hy => h y (by simp [hy]))]
      ring
  unfold norml
  rw [this, Real.sqrt_zero]

/-! ## Document chunks and batch similarity

`DocumentChunk` (from `ai_services/models.py`) restricted to the fields the
similarity search reads.  `embedding` holds the parsed vector
(`get_embedding_vector()` on the model parses the stored JSON; an
empty/unparseable stored string yields `[]`). -/

structure Chunk where
  chunk_id : ℕ
  content : String
  embedding : List ℝ
  source_type : String
  source_id : String
  source_title : String

/-- Constant `OptimizedRAGService.batch_size` (100). -/
def batch_size : ℕ := 100

/-- Partition a list into consecutive batches of `batch_size`, as
`for i in range(0, len(chunks), self.batch_size): batch = chunks[i:i+...]`. -/
def batchesOf : List Chunk → List (List Chunk)
  | [] => []
  | l@(_ :: _) => l.take batch_size :: batchesOf (l.drop batch_size)
termination_by l => l.length
decreasing_by simp_all [List.length_drop, batch_size]; omega

/-- The vectorised per-chunk similarity of one batch row in
`_batch_calculate_similarities`: `norms = ‖chunk‖·‖query‖`;
rows with `norms > 0` get `dot/norms`, the rest are left at `0`
(`batch_similarities = np.zeros(...)`). -/
noncomputable def batch_row_similarity (qe ce : List ℝ) : ℝ :=
  if 0 < norml ce * norml qe then dotl ce qe / (norml ce * norml qe) else 0

/-- The validity filter of `_batch_calculate_similarities`:
`if chunk_embedding and len(chunk_embedding) == len(query_embedding)`. -/
def valid_chunk (qe : List ℝ) (c : Chunk) : Bool :=
  ¬ c.embedding.isEmpty ∧ c.embedding.length = qe.length

/-- Translation of `OptimizedRAGService._batch_calculate_similarities`: process the chunks
in batches of 100; in each batch keep only chunks with a non-empty
embedding of the query's dimension and pair them with the vectorised
cosine similarity; concatenate the per-batch results. -/
noncomputable def batch_calculate_similarities (qe : List ℝ) (chunks : List Chunk) :
    List (Chunk × ℝ) :=
  ((batchesOf chunks).map fun batch =>
    (batch.filter (valid_chunk qe)).map fun c => (c, batch_row_similarity qe c.embedding)).flatten

/-- The row formula agrees with `_cosine_similarity` (the zero guard
`norms > 0` coincides with `norm ≠ 0 ∨ norm ≠ 0` since norms are
non-negative), up to the argument order of the commutative dot product. -/
theorem batch_row_similarity_eq_cosine (qe ce : List ℝ) :
    batch_row_similarity qe ce = cosine_similarity ce qe := by
  unfold batch_row_similarity cosine_similarity
  rcases eq_or_lt_of_le (norml_nonneg ce) with hc | hc
  · simp [← hc, lt_irrefl]
  · rcases eq_or_lt_of_le (norml_nonneg qe) with hq | hq
    · simp [← hq, lt_irrefl, hc.ne']
    · have hpos : 0 < norml ce * norml qe := mul_pos hc hq
      simp [hpos, hc.ne', hq.ne']

theorem batchesOf_join (chunks : List Chunk) : (batchesOf chunks).flatten = chunks := by
  induction chunks using batchesOf.induct with
  | case1 => simp [batchesOf]
  | case2 l h ih =>
    rw [batchesOf]
    simp only [List.flatten_cons, ih, List.take_append_drop]

/-- Batching does not change the result: `_batch_calculate_similarities`
is the filter-and-score of the whole candidate list. -/
theorem batch_calculate_similarities_eq (qe : List ℝ) (chunks : List Chunk) :
    batch_calculate_similarities qe chunks =
      (chunks.filter (valid_chunk qe)).map fun c => (c, batch_row_similarity qe c.embedding) := by
  unfold batch_calculate_similarities
  induction chunks using batchesOf.induct with
  | case1 => simp [batchesOf]
  | case2 l h ih =>
    rw [batchesOf]
    simp only [List.map_cons, List.flatten_cons, ih]
    rw [← List.map_append, ← List.filter_append, List.take_append_drop]

/-! ## Similarity search

The pure core of `OptimizedRAGService.optimized_similarity_search`
(lines 141–155: everything after the query embedding and the database
fetch, both of which are external inputs here), and of
`RAGService._get_relevant_chunks` (lines 148–163).  Python's
`list.sort(key=..., reverse=True)` is a stable descending sort by score;
it is modelled with `List.mergeSort` and the boolean comparison
"left score not below right score", which is the same stable sort. -/

/-- Constant `OptimizedRAGService.similarity_threshold` (also of `RAGService`): 0.7. -/
noncomputable def similarity_threshold : ℝ := 7 / 10

/-- The descending-by-score comparison used to model
`filtered_similarities.sort(key=lambda x: x[1], reverse=True)`. -/
noncomputable def score_desc (a b : Chunk × ℝ) : Bool := decide (b.2 ≤ a.2)

/-- Lines 144–151 of `optimized_similarity_search`: keep the scored pairs
at or above the threshold, sort them descending by score, truncate to
`limit`. -/
noncomputable def optimized_search_scored (qe : List ℝ) (chunks : List Chunk)
    (threshold : ℝ) (limit : ℕ) : List (Chunk × ℝ) :=
  if chunks.isEmpty then []
  else
    (((batch_calculate_similarities qe chunks).filter
        fun p => decide (threshold ≤ p.2)).mergeSort score_desc).take limit

/-- Translation of `OptimizedRAGService.optimized_similarity_search`, given the query
embedding `qe` (`create_embedding` result; `[]` or a failed call yield the
empty result, as in lines 115–118) and the fetched candidate chunks. -/
noncomputable def optimized_similarity_search (qe : List ℝ) (chunks : List Chunk)
    (threshold : ℝ) (limit : ℕ) : List Chunk :=
  if qe.isEmpty then []
  else (optimized_search_scored qe chunks threshold limit).map Prod.fst

/-- Lines 148–157 of `RAGService._get_relevant_chunks`: chunks with a
stored embedding are scored with `_cosine_similarity(question_embedding,
chunk_embedding)`; parse failures are skipped (embeddings are modelled
already parsed, so only emptiness is checked). -/
noncomputable def legacy_similarities (qe : List ℝ) (chunks : List Chunk) :
    List (Chunk × ℝ) :=
  (chunks.filter fun c => ¬ c.embedding.isEmpty).map
    fun c => (c, cosine_similarity qe c.embedding)

/-- Lines 159–163 of `RAGService._get_relevant_chunks`, before dropping the
scores: sort descending by similarity, take the first `max_chunks`, and of
those keep the ones at or above the threshold. -/
noncomputable def legacy_search_scored (qe : List ℝ) (chunks : List Chunk)
    (threshold : ℝ) (max_chunks : ℕ) : List (Chunk × ℝ) :=
  (((legacy_similarities qe chunks).mergeSort score_desc).take max_chunks).filter
    fun p => decide (threshold ≤ p.2)

/-- Translation of `RAGService._get_relevant_chunks` (pure core, given the question
embedding and the fetched chunks):
`[chunk for chunk, sim in similarities[:max_chunks] if sim >= threshold]`. -/
noncomputable def get_relevant_chunks (qe : List ℝ) (chunks : List Chunk)
    (threshold : ℝ) (max_chunks : ℕ) : List Chunk :=
  (legacy_search_scored qe chunks threshold max_chunks).map Prod.fst

theorem score_desc_trans : ∀ a b c, score_desc a b → score_desc b c → score_desc a c := by
  intro a b c hab hbc
  simp only [score_desc, decide_eq_true_eq] at *
  exact le_trans hbc hab

theorem score_desc_total : ∀ a b, score_desc a b || score_desc b a := by
  intro a b
  simp only [score_desc, Bool.or_eq_true, decide_eq_true_eq]
  exact le_total b.2 a.2

theorem mem_batch_calc {qe : List ℝ} {chunks : List Chunk} {p : Chunk × ℝ}
    (hp : p ∈ batch_calculate_similarities qe chunks) :
    p.1 ∈ chunks ∧ p.2 = cosine_similarity p.1.embedding qe := by
  rw [batch_calculate_similarities_eq] at hp
  obtain ⟨c, hc, rfl⟩ := List.mem_map.1 hp
  exact ⟨(List.mem_filter.1 hc).1, batch_row_similarity_eq_cosine qe c.embedding⟩

theorem mem_legacy_similarities {qe : List ℝ} {chunks : List Chunk} {p : Chunk × ℝ}
    (hp : p ∈ legacy_similarities qe chunks) :
    p.1 ∈ chunks ∧ p.2 = cosine_similarity qe p.1.embedding := by
  obtain ⟨c, hc, rfl⟩ := List.mem_map.1 hp
  exact ⟨(List.mem_filter.1 hc).1, rfl⟩

theorem mem_optimized_search_scored {qe : List ℝ} {chunks : List Chunk} {threshold : ℝ}
    {limit : ℕ} {p : Chunk × ℝ} (hp : p ∈ optimized_search_scored qe chunks threshold limit) :
    threshold ≤ p.2 ∧ p ∈ batch_calculate_similarities qe chunks := by
  unfold optimized_search_scored at hp
  split at hp
  · simp at hp
  · have hp' := (List.take_sublist _ _).mem hp
    rw [List.mem_mergeSort] at hp'
    have := List.mem_filter.1 hp'
    exact ⟨by simpa using this.2, this.1⟩

theorem mem_legacy_search_scored {qe : List ℝ} {chunks : List Chunk} {threshold : ℝ}
    {mc : ℕ} {p : Chunk × ℝ} (hp : p ∈ legacy_search_scored qe chunks threshold mc) :
    threshold ≤ p.2 ∧ p ∈ legacy_similarities qe chunks := by
  unfold legacy_search_scored at hp
  have h1 := List.mem_filter.1 hp
  have h2 := (List.take_sublist _ _).mem h1.1
  rw [List.mem_mergeSort] at h2
  exact ⟨by simpa using h1.2, h2⟩

theorem sorted_desc_of_pairwise_score_desc {l : List (Chunk × ℝ)}
    (h : l.Pairwise fun a b => score_desc a b) :
    List.Sorted (· ≥ ·) (l.map Prod.snd) := by
  rw [List.Sorted, List.pairwise_map]
  exact h.imp fun hab => by simpa [score_desc] using hab

/-- C1: for every query vector, candidate chunk set, threshold and limit,
both similarity searches (`OptimizedRAGService.optimized_similarity_search`
and `RAGService._get_relevant_chunks`) return only chunks whose
cosine-similarity score is at least the threshold, in descending score
order, with at most `limit` results; and when no candidate's score clears
the threshold they return the empty list rather than failing. -/
theorem C1_similarity_search_threshold_sorted (qe : List ℝ) (chunks : List Chunk)
    (threshold : ℝ) (limit : ℕ) :
    (∀ c ∈ optimized_similarity_search qe chunks threshold limit,
        threshold ≤ cosine_similarity c.embedding qe) ∧
    List.Sorted (· ≥ ·)
        ((optimized_search_scored qe chunks threshold limit).map Prod.snd) ∧
    (optimized_similarity_search qe chunks threshold limit).length ≤ limit ∧
    ((∀ p ∈ batch_calculate_similarities qe chunks, p.2 < threshold) →
        optimized_similarity_search qe chunks threshold limit = []) ∧
    (∀ c ∈ get_relevant_chunks qe chunks threshold limit,
        threshold ≤ cosine_similarity qe c.embedding) ∧
    List.Sorted (· ≥ ·)
        ((legacy_search_scored qe chunks threshold limit).map Prod.snd) ∧
    (get_relevant_chunks qe chunks threshold limit).length ≤ limit ∧
    ((∀ p ∈ legacy_similarities qe chunks, p.2 < threshold) →
        get_relevant_chunks qe chunks threshold limit = []) := by
  refine ⟨?_, ?_, ?_, ?_, ?_, ?_, ?_, ?_⟩
  · intro c hc
    unfold optimized_similarity_search at hc
    split at hc
    · simp at hc
    · obtain ⟨p, hp, rfl⟩ := List.mem_map.1 hc
      obtain ⟨hthr, hmem⟩ := mem_optimized_search_scored hp
      rw [← (mem_batch_calc hmem).2]
      exact hthr
  · unfold optimized_search_scored
    split
    · simp
    · exact sorted_desc_of_pairwise_score_desc
        (((List.sorted_mergeSort score_desc_trans score_desc_total _).sublist
          (List.take_sublist _ _)))
  · unfold optimized_similarity_search
    split
    · simp
    · rw [List.length_map]
      unfold optimized_search_scored
      split
      · simp
      · exact le_trans (List.length_take_le _ _) le_rfl
  · intro h
    unfold optimized_similarity_search
    split
    · rfl
    · unfold optimized_search_scored
      split
      · rfl
      · have : (batch_calculate_similarities qe chunks).filter
            (fun p => decide (threshold ≤ p.2)) = [] := by
          rw [List.filter_eq_nil_iff]
          intro p hp
          simpa using not_le.2 (h p hp)
        rw [this]
        simp
  · intro c hc
    obtain ⟨p, hp, rfl⟩ := List.mem_map.1 hc
    obtain ⟨hthr, hmem⟩ := mem_legacy_search_scored hp
    rw [← (mem_legacy_similarities hmem).2]
    exact hthr
  · unfold legacy_search_scored
    exact sorted_desc_of_pairwise_score_desc
      ((((List.sorted_mergeSort score_desc_trans score_desc_total _).sublist
        (List.take_sublist _ _))).sublist (List.filter_sublist _))
  · unfold get_relevant_chunks legacy_search_scored
    rw [List.length_map]
    exact le_trans (List.length_filter_le _ _) (List.length_take_le _ _)
  · intro h
    unfold get_relevant_chunks legacy_search_scored
    have : (((legacy_similarities qe chunks).mergeSort score_desc).take limit).filter
        (fun p => decide (threshold ≤ p.2)) = [] := by
      rw [List.filter_eq_nil_iff]
      intro p hp
      have hp' := (List.take_sublist _ _).mem hp
      rw [List.mem_mergeSort] at hp'
      simpa using not_le.2 (h p hp')
    rw [this, List.map_nil]

/-- Closed instance of `C1_similarity_search_threshold_sorted`: with no
candidate chunk clearing the threshold (here: no candidates at all), both
searches return the empty list. -/
theorem C1_similarity_search_witness :
    optimized_similarity_search [1] [] similarity_threshold 5 = [] ∧
    get_relevant_chunks [1] [] similarity_threshold 5 = [] :=
  ⟨(C1_similarity_search_threshold_sorted [1] [] similarity_threshold 5).2.2.2.1
      (by intro p hp; simp [batch_calculate_similarities, batchesOf] at hp),
   (C1_similarity_search_threshold_sorted [1] [] similarity_threshold 5).2.2.2.2.2.2.2
      (by intro p hp; simp [legacy_similarities] at hp)⟩

/-- C5: the cosine-similarity computation is total: a zero-norm vector
yields similarity `0.0` on either side (no division-by-zero), and
`_batch_calculate_similarities` silently excludes chunks whose embedding
is missing or of a different dimension than the query vector, while
keeping every chunk of the matching dimension. -/
theorem C5_zero_norm_and_dimension_guard (a b qe : List ℝ) (chunks : List Chunk) :
    ((∀ x ∈ a, x = 0) →
        cosine_similarity a b = 0 ∧ cosine_similarity b a = 0) ∧
    (∀ p ∈ batch_calculate_similarities qe chunks,
        p.1.embedding ≠ [] ∧ p.1.embedding.length = qe.length) ∧
    (∀ c ∈ chunks, c.embedding ≠ [] → c.embedding.length = qe.length →
        (c, batch_row_similarity qe c.embedding) ∈ batch_calculate_similarities qe chunks) := by
  refine ⟨?_, ?_, ?_⟩
  · intro h
    have ha : norml a = 0 := norml_zero_of_all_zero h
    constructor
    · unfold cosine_similarity
      exact if_pos (Or.inl ha)
    · unfold cosine_similarity
      exact if_pos (Or.inr ha)
  · intro p hp
    rw [batch_calculate_similarities_eq] at hp
    obtain ⟨c, hc, rfl⟩ := List.mem_map.1 hp
    have := (List.mem_filter.1 hc).2
    simp only [valid_chunk, Bool.decide_and, Bool.and_eq_true, decide_eq_true_eq] at this
    exact ⟨by simpa [List.isEmpty_iff] using this.1, this.2⟩
  · intro c hc hne hlen
    rw [batch_calculate_similarities_eq]
    exact List.mem_map.2 ⟨c, List.mem_filter.2 ⟨hc, by
      simp [valid_chunk, List.isEmpty_iff, hne, hlen]⟩, rfl⟩

/-- Closed instance of `C5_zero_norm_and_dimension_guard`: the all-zero
vector gets similarity `0.0` against `[3, 4]`, and a chunk of matching
dimension is kept by the batch computation. -/
theorem C5_zero_norm_witness :
    cosine_similarity [0, 0] [3, 4] = 0 ∧
    ((⟨0, "", [1], "", "", ""⟩ : Chunk), batch_row_similarity [1] [1]) ∈
      batch_calculate_similarities [1] [⟨0, "", [1], "", "", ""⟩] :=
  ⟨((C5_zero_norm_and_dimension_guard [0, 0] [3, 4] [1] []).1 (by simp)).1,
   (C5_zero_norm_and_dimension_guard [0, 0] [3, 4] [1]
      [⟨0, "", [1], "", "", ""⟩]).2.2 ⟨0, "", [1], "", "", ""⟩ (by simp) (by simp) (by simp)⟩

/-! ## Confidence scoring

Translated from `OptimizedRAGService._calculate_confidence`.  All the
arithmetic is rational, so it is modelled exactly over `ℚ`;
`round(x, 2)` is modelled as rounding `100·x` to the nearest integer
(Python rounds ties of binary floats to even; on the exact rationals here
the nearest-integer model only differs on exact half-cent ties). -/

/-- Python's `str.lower` (ASCII case folding; the uncertainty phrases are
ASCII).  Implemented over the character list so that closed statements
reduce in the kernel. -/
def py_lower (s : String) : String := String.mk (s.toList.map Char.toLower)

/-- Python's `in` on strings, as a test on character lists. -/
def has_substr (p : List Char) : List Char → Bool
  | [] => p.isEmpty
  | c :: cs => p.isPrefixOf (c :: cs) || has_substr p cs

/-- The fixed `uncertainty_indicators` list of `_calculate_confidence`. -/
def uncertainty_indicators : List String :=
  ["not sure", "unclear", "don\x27t know", "insufficient", "limited information"]

/-- Test `any(indicator in answer_text for indicator in uncertainty_indicators)`. -/
def contains_indicator (answer_text : String) : Bool :=
  uncertainty_indicators.any fun ind => has_substr ind.toList answer_text.toList

/-- Model of `round(x, 2)`. -/
def round2 (x : ℚ) : ℚ := (round (100 * x) : ℤ) / 100

/-- Translation of `OptimizedRAGService._calculate_confidence` (the non-exceptional path),
with the answer string, token count, retrieved-chunk count and the
service's `max_chunks` as inputs. -/
def calculate_confidence (answer : String) (tokens_used chunk_count max_chunks : ℕ) : ℚ :=
  let base_confidence : ℚ := 1 / 2
  let chunk_factor := min ((chunk_count : ℚ) / (max_chunks : ℚ)) 1 * (3 / 10)
  let length_factor := min ((answer.length : ℚ) / 200) 1 * (1 / 5)
  let token_factor := min ((tokens_used : ℚ) / 300) 1 * (1 / 5)
  let uncertainty_factor : ℚ := if contains_indicator (py_lower answer) then 1 / 10 else 0
  let confidence := base_confidence + chunk_factor + length_factor + token_factor -
    uncertainty_factor
  round2 (max 0 (min 1 confidence))

/-- The scoring formula exactly as the spec (§4.6 ConfidenceScorer) states
it: `0.5 + min(chunkCount/maxChunks,1)·0.3 + min(len(answer)/200,1)·0.2 +
min(tokensUsed/300,1)·0.2`, minus `0.1` on an uncertainty phrase, clamped
to `[0,1]` and rounded to 2 decimals. -/
def spec_confidence_score (answer : String) (tokensUsed chunkCount maxChunks : ℕ) : ℚ :=
  round2 (max 0 (min 1
    ((1 / 2) + min ((chunkCount : ℚ) / (maxChunks : ℚ)) 1 * (3 / 10)
      + min ((answer.length : ℚ) / 200) 1 * (1 / 5)
      + min ((tokensUsed : ℚ) / 300) 1 * (1 / 5)
      - (if contains_indicator (py_lower answer) then (1 : ℚ) / 10 else 0))))

theorem round2_mem_unit {x : ℚ} (h0 : 0 ≤ x) (h1 : x ≤ 1) :
    0 ≤ round2 x ∧ round2 x ≤ 1 := by
  unfold round2
  have hlo : (0 : ℤ) ≤ round (100 * x) := by
    rw [round_eq]
    have : (0 : ℚ) ≤ 100 * x + 1 / 2 := by linarith
    exact Int.floor_nonneg.2 this
  have hhi : round (100 * x) ≤ 100 := by
    rw [round_eq]
    have h : (100 : ℚ) * x + 1 / 2 ≤ 100 + 1 / 2 := by linarith
    calc ⌊(100 : ℚ) * x + 1 / 2⌋ ≤ ⌊(100 : ℚ) + 1 / 2⌋ := Int.floor_le_floor h
      _ = 100 := by norm_num [Int.floor_eq_iff]
  constructor
  · positivity
  · rw [div_le_one (by norm_num)]
    exact_mod_cast hhi

/-- C2: the confidence score is exactly the spec's weighted-sum formula
(clamped to `[0,1]` and rounded to 2 decimals), and in particular always
lies in `[0,1]`. -/
theorem C2_confidence_formula (answer : String) (tokensUsed chunkCount maxChunks : ℕ)
    (h : 0 < maxChunks) :
    calculate_confidence answer tokensUsed chunkCount maxChunks
      = spec_confidence_score answer tokensUsed chunkCount maxChunks ∧
    0 ≤ calculate_confidence answer tokensUsed chunkCount maxChunks ∧
    calculate_confidence answer tokensUsed chunkCount maxChunks ≤ 1 := by
  have heq : calculate_confidence answer tokensUsed chunkCount maxChunks
      = spec_confidence_score answer tokensUsed chunkCount maxChunks := rfl
  refine ⟨heq, ?_, ?_⟩
  all_goals
    unfold calculate_confidence
    have hb := round2_mem_unit (x := max 0 (min 1
      ((1 : ℚ) / 2 + min ((chunkCount : ℚ) / (maxChunks : ℚ)) 1 * (3 / 10)
        + min ((answer.length : ℚ) / 200) 1 * (1 / 5)
        + min ((tokensUsed : ℚ) / 300) 1 * (1 / 5)
        - (if contains_indicator (py_lower answer) then (1 : ℚ) / 10 else 0))))
      (le_max_left 0 _) (by
        apply max_le
        · norm_num
        · exact min_le_left 1 _)
  · exact hb.1
  · exact hb.2

/-- Closed instance of `C2_confidence_formula`: an uncertain short answer
with no retrieved chunks scores `0.41`, within `[0,1]`, matching the spec
formula. -/
theorem C2_confidence_witness :
    0 < 5 ∧
    (calculate_confidence "I don\x27t know." 0 0 5
        = spec_confidence_score "I don\x27t know." 0 0 5 ∧
      0 ≤ calculate_confidence "I don\x27t know." 0 0 5 ∧
      calculate_confidence "I don\x27t know." 0 0 5 ≤ 1) ∧
    calculate_confidence "I don\x27t know." 0 0 5 = 41 / 100 :=
  ⟨by decide, C2_confidence_formula "I don\x27t know." 0 0 5 (by decide), by
    have hlen : "I don\x27t know.".length = 13 := by decide
    have hind : contains_indicator (py_lower "I don\x27t know.") = true := by decide
    norm_num [calculate_confidence, round2, hlen, hind, round_eq]⟩

/-! ## Text chunking

Translated from `EmbeddingService._clean_text` and
`EmbeddingService.chunk_text`.  The `tiktoken` `cl100k_base` tokenizer is
an external dependency; it is modelled abstractly by a `Tokenizer`
bundling the laws the real tokenizer satisfies (decode∘encode round-trips,
the empty text has no tokens, a non-empty token list decodes to a
non-empty string), with the character-level instance `charTok` used for
closed statements. -/

structure Tokenizer where
  encode : String → List ℕ
  decode : List ℕ → String
  roundtrip : ∀ s, decode (encode s) = s
  encode_nil : encode "" = []
  decode_ne_nil : ∀ ts, ts ≠ [] → decode ts ≠ ""

/-- The character-level tokenizer: one token per character. -/
def charTok : Tokenizer where
  encode s := s.toList.map Char.toNat
  decode ts := String.mk (ts.map Char.ofNat)
  roundtrip s := by
    show String.mk ((s.toList.map Char.toNat).map Char.ofNat) = s
    rw [List.map_map]
    have : (Char.ofNat ∘ Char.toNat) = id := by
      funext c
      exact Char.ofNat_toNat c
    rw [this, List.map_id]
    cases s
    rfl
  encode_nil := rfl
  decode_ne_nil := by
    intro ts h hc
    cases ts with
    | nil => exact h rfl
    | cons t ts' =>
      have := congrArg String.data hc
      simp at this

/-- Python's `str.strip()` on a character list. -/
def py_strip (l : List Char) : List Char :=
  ((l.dropWhile Char.isWhitespace).reverse.dropWhile Char.isWhitespace).reverse

/-- Model of `re.sub(r'\s+', ' ', ·)`: replace every maximal whitespace run by one
space.  The flag records whether the previous character was inside a run
whose space has already been emitted. -/
def collapse_aux : Bool → List Char → List Char
  | _, [] => []
  | prevWs, c :: cs =>
    if c.isWhitespace then
      if prevWs then collapse_aux true cs else ' ' :: collapse_aux true cs
    else c :: collapse_aux false cs

/-- Model of `re.sub(r'\s+', ' ', text.strip())` of `_clean_text`. -/
def collapse_ws (s : String) : String :=
  String.mk (collapse_aux false (py_strip s.toList))

/-- Constant `EmbeddingService.max_tokens` (8192). -/
def max_tokens : ℕ := 8192

/-- Constant `EmbeddingService.chunk_size` (500); `chunk_overlap` (50) follows. -/
def chunk_size : ℕ := 500

def chunk_overlap : ℕ := 50

/-- Translation of `EmbeddingService._clean_text`: empty text maps to `""`; otherwise
strip/collapse whitespace, then truncate to `max_tokens` tokens via
tokenize → truncate → detokenize. -/
def clean_text (tok : Tokenizer) (text : String) : String :=
  if text = "" then ""
  else
    let t := collapse_ws text
    let tokens := tok.encode t
    if max_tokens < tokens.length then tok.decode (tokens.take max_tokens) else t

/-- The token windows produced by the `while start < len(tokens)` loop of
`chunk_text`: each window is `tokens[start : start+chunk_size]`, and the
next start is `start + chunk_size - chunk_overlap` (the loop's inner
`if start >= len(tokens): break` re-checks the same condition as the
`while`). -/
def chunk_windows (tokens : List ℕ) (start : ℕ) : List (List ℕ) :=
  if start < tokens.length then
    (tokens.drop start).take chunk_size ::
      chunk_windows tokens (start + (chunk_size - chunk_overlap))
  else []
termination_by tokens.length - start
decreasing_by simp [chunk_size, chunk_overlap]; omega

/-- Translation of `EmbeddingService.chunk_text`: `[]` for empty input; the cleaned text
as a single chunk when it has at most `chunk_size` tokens; otherwise the
decoded overlapping windows. -/
def chunk_text (tok : Tokenizer) (text : String) : List String :=
  if text = "" then []
  else
    let t := clean_text tok text
    let tokens := tok.encode t
    if tokens.length ≤ chunk_size then [t]
    else (chunk_windows tokens 0).map tok.decode

/-- Predicate for "`c₁` and `c₂` overlap by exactly `ov` tokens": the last `ov` tokens
of `c₁` are the first `ov` tokens of `c₂`, and both chunks have at least
`ov` tokens. -/
def overlaps_by (ov : ℕ) (c1 c2 : List ℕ) : Prop :=
  c1.drop (c1.length - ov) = c2.take ov ∧ ov ≤ c1.length ∧ ov ≤ c2.length

theorem chunk_windows_ne_nil (tokens : List ℕ) :
    ∀ start : ℕ, ∀ w ∈ chunk_windows tokens start, w ≠ [] := by
  refine chunk_windows.induct tokens
    (fun start => ∀ w ∈ chunk_windows tokens start, w ≠ []) ?_ ?_
  · intro start h ih
    rw [chunk_windows, if_pos h]
    intro w hw
    rcases List.mem_cons.1 hw with rfl | hw'
    · have : 0 < ((tokens.drop start).take chunk_size).length := by
        rw [List.length_take, List.length_drop]
        simp [chunk_size]
        omega
      exact List.ne_nil_of_length_pos this
    · exact ih w hw'
  · intro start h
    rw [chunk_windows, if_neg h]
    intro w hw
    simp at hw

theorem chunk_windows_chain (tokens : List ℕ) :
    ∀ start : ℕ,
      List.Chain' (fun c1 c2 => c1.length = chunk_size → overlaps_by chunk_overlap c1 c2)
        (chunk_windows tokens start) := by
  refine chunk_windows.induct tokens
    (fun start =>
      List.Chain' (fun c1 c2 => c1.length = chunk_size → overlaps_by chunk_overlap c1 c2)
        (chunk_windows tokens start)) ?_ ?_
  · intro start h ih
    rw [chunk_windows, if_pos h]
    refine List.chain'_cons'.2 ⟨?_, ih⟩
    intro y hy
    rw [chunk_windows] at hy
    split at hy
    · simp only [List.head?_cons, Option.mem_def, Option.some_inj] at hy
      subst hy
      intro hlen
      have hfull : chunk_size ≤ tokens.length - start := by
        rw [List.length_take, List.length_drop] at hlen
        omega
      refine ⟨?_, ?_, ?_⟩
      · rw [hlen, List.drop_take, List.drop_drop, List.take_take]
        simp [chunk_size, chunk_overlap]
      · rw [hlen]
        simp [chunk_size, chunk_overlap]
      · rw [List.length_take, List.length_drop]
        simp only [chunk_size, chunk_overlap] at *
        omega
    · simp at hy
  · intro start h
    rw [chunk_windows, if_neg h]
    exact List.chain'_nil

theorem chunk_windows_flatten_drop (tokens : List ℕ) :
    ∀ start : ℕ,
      ((chunk_windows tokens start).map (List.drop chunk_overlap)).flatten
        = tokens.drop (start + chunk_overlap) := by
  refine chunk_windows.induct tokens
    (fun start =>
      ((chunk_windows tokens start).map (List.drop chunk_overlap)).flatten
        = tokens.drop (start + chunk_overlap)) ?_ ?_
  · intro start h ih
    rw [chunk_windows, if_pos h]
    rw [List.map_cons, List.flatten_cons, ih]
    rw [List.drop_take, List.drop_drop]
    have h1 : start + (chunk_size - chunk_overlap) + chunk_overlap
        = start + chunk_overlap + (chunk_size - chunk_overlap) := by
      omega
    rw [h1,
      show List.drop (start + chunk_overlap + (chunk_size - chunk_overlap)) tokens
          = List.drop (chunk_size - chunk_overlap)
              (List.drop (start + chunk_overlap) tokens) from
        (List.drop_drop _ _ _).symm,
      List.take_append_drop]
  · intro start h
    rw [chunk_windows, if_neg h]
    simp only [List.map_nil, List.flatten_nil]
    rw [Eq.comm, List.drop_eq_nil_iff]
    omega

/-- C3 (amended): for every tokenizer and text whose cleaned form has more
than `chunk_size` tokens, the chunker returns the decoded overlapping
windows; consecutive windows overlap by exactly `chunk_overlap` tokens
whenever the earlier window holds a full `chunk_size` tokens (the final
pair may overlap by fewer when the text ends inside the penultimate
window); and the first window followed by each later window minus its
first `chunk_overlap` tokens reconstructs the full token sequence. -/
theorem C3_chunk_overlap_reconstruction (tok : Tokenizer) (text : String)
    (h : chunk_size < (tok.encode (clean_text tok text)).length) :
    chunk_text tok text =
      (chunk_windows (tok.encode (clean_text tok text)) 0).map tok.decode ∧
    List.Chain' (fun c1 c2 => c1.length = chunk_size → overlaps_by chunk_overlap c1 c2)
      (chunk_windows (tok.encode (clean_text tok text)) 0) ∧
    ∃ w ws, chunk_windows (tok.encode (clean_text tok text)) 0 = w :: ws ∧
      w ++ (ws.map (List.drop chunk_overlap)).flatten
        = tok.encode (clean_text tok text) := by
  have htext : text ≠ "" := by
    intro he
    rw [he] at h
    have : clean_text tok "" = "" := by simp [clean_text]
    rw [this, tok.encode_nil] at h
    simp [chunk_size] at h
  refine ⟨?_, chunk_windows_chain _ 0, ?_⟩
  · unfold chunk_text
    rw [if_neg htext, if_neg (by omega)]
  · have h0 : 0 < (tok.encode (clean_text tok text)).length := by
      simp only [chunk_size] at h
      omega
    rw [chunk_windows, if_pos h0]
    refine ⟨_, _, rfl, ?_⟩
    rw [chunk_windows_flatten_drop]
    have : chunk_size - chunk_overlap + chunk_overlap = chunk_size := by
      simp [chunk_size, chunk_overlap]
    rw [Nat.zero_add, this, List.drop_zero, List.take_append_drop]

set_option maxRecDepth 100000 in
/-- Closed instance of `C3_chunk_overlap_reconstruction` at a 501-token
text under the character tokenizer. -/
theorem C3_chunk_overlap_witness :
    chunk_size <
      (charTok.encode (clean_text charTok (String.mk (List.replicate 501 'a')))).length ∧
    (chunk_text charTok (String.mk (List.replicate 501 'a')) =
      (chunk_windows
        (charTok.encode (clean_text charTok (String.mk (List.replicate 501 'a')))) 0).map
          charTok.decode ∧
     List.Chain' (fun c1 c2 => c1.length = chunk_size → overlaps_by chunk_overlap c1 c2)
       (chunk_windows
         (charTok.encode (clean_text charTok (String.mk (List.replicate 501 'a')))) 0) ∧
     ∃ w ws,
       chunk_windows
         (charTok.encode (clean_text charTok (String.mk (List.replicate 501 'a')))) 0
           = w :: ws ∧
       w ++ (ws.map (List.drop chunk_overlap)).flatten
         = charTok.encode (clean_text charTok (String.mk (List.replicate 501 'a')))) :=
  ⟨by decide, C3_chunk_overlap_reconstruction charTok _ (by decide)⟩

set_option maxRecDepth 200000 in
/-- C3 counterexample: for the 901-character text of `a`s (901 tokens
under the character tokenizer; the same shape arises for any text whose
token count lies strictly between 900 and 950), the chunker emits windows
`[0,500)`, `[450,901)` and `[900,901)`, and the final consecutive pair
shares only 1 token, not `chunk_overlap = 50`: the claim "every pair of
consecutive chunks overlaps by exactly `overlap` tokens" fails. -/
theorem C3_overlap_counterexample :
    chunk_size <
      (charTok.encode (clean_text charTok (String.mk (List.replicate 901 'a')))).length ∧
    ¬ List.Chain' (overlaps_by chunk_overlap)
        (chunk_windows
          (charTok.encode (clean_text charTok (String.mk (List.replicate 901 'a')))) 0) := by
  have hT : charTok.encode (clean_text charTok (String.mk (List.replicate 901 'a')))
      = List.replicate 901 97 := by decide
  rw [hT]
  have hlen : (List.replicate 901 97).length = 901 := by simp
  constructor
  · rw [hlen]
    simp [chunk_size]
  · have e : chunk_windows (List.replicate 901 97) 0 =
        [((List.replicate 901 97).drop 0).take chunk_size,
         ((List.replicate 901 97).drop 450).take chunk_size,
         ((List.replicate 901 97).drop 900).take chunk_size] := by
      rw [chunk_windows, if_pos (by rw [hlen]; norm_num)]
      rw [show (0 + (chunk_size - chunk_overlap)) = 450 by simp [chunk_size, chunk_overlap]]
      rw [chunk_windows, if_pos (by rw [hlen]; norm_num)]
      rw [show (450 + (chunk_size - chunk_overlap)) = 900 by simp [chunk_size, chunk_overlap]]
      rw [chunk_windows, if_pos (by rw [hlen]; norm_num)]
      rw [show (900 + (chunk_size - chunk_overlap)) = 1350 by simp [chunk_size, chunk_overlap]]
      rw [chunk_windows, if_neg (by rw [hlen]; norm_num)]
    rw [e]
    intro hch
    rw [List.chain'_cons, List.chain'_cons] at hch
    have hbad := hch.2.1
    have hw2 : (((List.replicate 901 97).drop 900).take chunk_size).length = 1 := by
      rw [List.length_take, List.length_drop, hlen]
      simp [chunk_size]
    have h50 := hbad.2.2
    rw [hw2] at h50
    simp [chunk_overlap] at h50

/-- C6 (amended): for every tokenizer and text, (1) if the cleaned text is
non-empty and has at most `chunk_size` tokens then `chunk_text` returns
exactly that single cleaned chunk; (2) the empty input yields `[]` (not a
one-element list); and (3) when the cleaned text is non-empty, no returned
chunk is the empty string. -/
theorem C6_single_chunk_and_nonempty (tok : Tokenizer) (text : String)
    (h1 : clean_text tok text ≠ "") :
    ((tok.encode (clean_text tok text)).length ≤ chunk_size →
      chunk_text tok text = [clean_text tok text]) ∧
    chunk_text tok "" = [] ∧
    (∀ s ∈ chunk_text tok text, s ≠ "") := by
  have htext : text ≠ "" := by
    intro he
    apply h1
    rw [he]
    simp [clean_text]
  refine ⟨?_, by simp [chunk_text], ?_⟩
  · intro hlen
    unfold chunk_text
    rw [if_neg htext, if_pos hlen]
  · intro s hs
    simp only [chunk_text] at hs
    rw [if_neg htext] at hs
    split at hs
    · rw [List.mem_singleton] at hs
      rw [hs]
      exact h1
    · obtain ⟨w, hw, rfl⟩ := List.mem_map.1 hs
      exact tok.decode_ne_nil w (chunk_windows_ne_nil _ 0 w hw)

/-- Closed instance of `C6_single_chunk_and_nonempty`: `"hello  world"`
cleans to `"hello world"` (11 tokens under the character tokenizer) and
comes back as that single chunk. -/
theorem C6_single_chunk_witness :
    clean_text charTok "hello  world" ≠ "" ∧
    chunk_text charTok "hello  world" = [clean_text charTok "hello  world"] ∧
    clean_text charTok "hello  world" = "hello world" :=
  ⟨by decide,
   (C6_single_chunk_and_nonempty charTok "hello  world" (by decide)).1 (by decide),
   by decide⟩

/-- C6 counterexample: the claim fails on whitespace-only and empty
inputs.  `chunk_text(" ")` returns `[""]` — a chunk that *is* the empty
string although the input text is non-empty — and `chunk_text("")`
returns `[]`, not the one-element list `[normalized ""] = [""]`. -/
theorem C6_empty_chunk_counterexample :
    (charTok.encode (clean_text charTok " ")).length ≤ chunk_size ∧
    chunk_text charTok " " = [""] ∧
    (charTok.encode (clean_text charTok "")).length ≤ chunk_size ∧
    chunk_text charTok "" ≠ [clean_text charTok ""] := by
  refine ⟨by decide, by decide, by decide, ?_⟩
  intro hc
  have : ([] : List String) = [clean_text charTok ""] := by
    rw [← hc]
    decide
  simp at this

/-! ## The two-tier embedding cache

Translated from `CacheService.get_cached_embedding` and
`EmbeddingCache.is_expired` (`ai_services/models.py`).  The Django/Redis
cache is modelled as an association list from keys to entries paired with
the TTL they were stored with (`cache.set(key, data, timeout)`); lookups
take the most recent binding.  `hashlib.md5(...).hexdigest()` is passed in
as a `hash` parameter.  Timestamps are natural numbers. -/

structure EmbeddingCacheEntry where
  text_hash : String
  text_content : String
  embedding : List ℚ
  model_name : String
  created_at : ℕ
  expires_at : Option ℕ
deriving DecidableEq

/-- Translation of `EmbeddingCache.is_expired`: true when `expires_at` is set and lies
strictly in the past. -/
def is_expired (e : EmbeddingCacheEntry) (now : ℕ) : Bool :=
  match e.expires_at with
  | some t => decide (t < now)
  | none => false

/-- The dict cached in Redis by `get_cached_embedding` /
`cache_embedding` (`{'embedding': ..., 'text': ..., 'model': ...,
'cached_at': ...}`). -/
structure RedisEntry where
  embedding : List ℚ
  text : String
  model : String
  cached_at : ℕ
deriving DecidableEq

/-- The Redis tier: key ↦ (entry, ttl with which it was set). -/
abbrev RedisState := List (String × (RedisEntry × ℕ))

def redis_get (r : RedisState) (key : String) : Option RedisEntry :=
  (r.lookup key).map Prod.fst

def redis_set (r : RedisState) (key : String) (v : RedisEntry) (ttl : ℕ) : RedisState :=
  (key, (v, ttl)) :: r

/-- Constant `CacheService.embedding_timeout` (7 days in seconds). -/
def embedding_timeout : ℕ := 86400 * 7

/-- Constant `CacheService.rag_timeout` (1 hour). -/
def rag_timeout : ℕ := 3600

/-- Translation of `CacheService.get_cached_embedding`: try the Redis tier under
`"embedding:" + md5(text)`; on a miss, take the first database row whose
`text_hash` matches (`.filter(text_hash=...).first()`; the list models
the table in its `-created_at` default order), write it back into Redis
with the embedding TTL, and return its vector; otherwise `None`.  Note:
the row's `expires_at` is never consulted. -/
def get_cached_embedding (hash : String → String) (redis : RedisState)
    (db : List EmbeddingCacheEntry) (text : String) :
    Option (List ℚ) × RedisState :=
  let cache_key := "embedding:" ++ hash text
  match redis_get redis cache_key with
  | some entry => (some entry.embedding, redis)
  | none =>
    match db.find? (fun e => e.text_hash == hash text) with
    | some ec =>
      let cache_data : RedisEntry :=
        { embedding := ec.embedding, text := ec.text_content,
          model := ec.model_name, cached_at := ec.created_at }
      (some ec.embedding, redis_set redis cache_key cache_data embedding_timeout)
    | none => (none, redis)

/-- C8 (amended): `get_cached_embedding` ignores expiry entirely: on a
Redis miss, the first matching database row is returned even when
`is_expired` holds for it, and a text with no row at all yields `None` —
the only two observable outcomes, with no distinct "expired" signal. -/
theorem C8_expired_entry_returned (hash : String → String) (redis : RedisState)
    (db : List EmbeddingCacheEntry) (text : String) (ec : EmbeddingCacheEntry) (now : ℕ)
    (hmiss : redis_get redis ("embedding:" ++ hash text) = none)
    (hdb : db.find? (fun e => e.text_hash == hash text) = some ec)
    (hexp : is_expired ec now = true) :
    (get_cached_embedding hash redis db text).1 = some ec.embedding ∧
    (get_cached_embedding hash redis [] text).1 = none := by
  simp only [get_cached_embedding]
  rw [hmiss, hdb]
  simp

/-- A concrete expired cache row (`expires_at = 5`). -/
def expiredEntry : EmbeddingCacheEntry :=
  { text_hash := "h", text_content := "t", embedding := [1, 2],
    model_name := "text-embedding-ada-002", created_at := 0, expires_at := some 5 }

/-- Closed instance of `C8_expired_entry_returned` at `now = 10`. -/
theorem C8_expired_entry_witness :
    redis_get [] ("embedding:" ++ (fun s => s) "h") = none ∧
    List.find? (fun e => e.text_hash == (fun s => s) "h") [expiredEntry] = some expiredEntry ∧
    is_expired expiredEntry 10 = true ∧
    (get_cached_embedding (fun s => s) [] [expiredEntry] "h").1 = some expiredEntry.embedding :=
  ⟨by decide, by decide, by decide,
   (C8_expired_entry_returned (fun s => s) [] [expiredEntry] "h" expiredEntry 10
      (by decide) (by decide) (by decide)).1⟩

/-- C8 counterexample: an `EmbeddingCacheEntry` whose `expires_at` lies in
the past (`is_expired` = true at `now = 10`) is *not* excluded from the
lookup — its vector is returned exactly as a live entry's would be, and
the `Option` result carries no distinct "expired" report. -/
theorem C8_expired_not_excluded_counterexample :
    is_expired expiredEntry 10 = true ∧
    (get_cached_embedding (fun s => s) [] [expiredEntry] "h").1 = some [1, 2] := by
  constructor
  · decide
  · decide

/-- C10: a Redis miss followed by a database hit writes the vector back
into the Redis tier under the embedding TTL before returning it, so that
an immediately repeated lookup is served by the fast tier — even if the
database row has disappeared in the meantime. -/
theorem C10_db_hit_promoted_to_redis (hash : String → String) (redis : RedisState)
    (db : List EmbeddingCacheEntry) (text : String) (ec : EmbeddingCacheEntry)
    (hmiss : redis_get redis ("embedding:" ++ hash text) = none)
    (hdb : db.find? (fun e => e.text_hash == hash text) = some ec) :
    (get_cached_embedding hash redis db text).1 = some ec.embedding ∧
    (List.lookup ("embedding:" ++ hash text) (get_cached_embedding hash redis db text).2)
      = some ({ embedding := ec.embedding, text := ec.text_content,
                model := ec.model_name, cached_at := ec.created_at }, embedding_timeout) ∧
    get_cached_embedding hash (get_cached_embedding hash redis db text).2 [] text
      = (some ec.embedding, (get_cached_embedding hash redis db text).2) := by
  have hres : get_cached_embedding hash redis db text
      = (some ec.embedding,
         redis_set redis ("embedding:" ++ hash text)
           { embedding := ec.embedding, text := ec.text_content,
             model := ec.model_name, cached_at := ec.created_at } embedding_timeout) := by
    simp only [get_cached_embedding]
    rw [hmiss, hdb]
  refine ⟨by rw [hres], ?_, ?_⟩
  · rw [hres]
    simp [redis_set, List.lookup]
  · rw [hres]
    simp only [get_cached_embedding, redis_get, redis_set, List.lookup]
    simp

/-- A live cache row used for the `C10` witness. -/
def liveEntry : EmbeddingCacheEntry :=
  { text_hash := "hello", text_content := "hello", embedding := [3, 4],
    model_name := "text-embedding-ada-002", created_at := 2, expires_at := none }

/-- Closed instance of `C10_db_hit_promoted_to_redis`: the vector `[3,4]`
is served from the database on the first lookup, written back to Redis
with the 7-day TTL, and the repeated lookup succeeds with no database. -/
theorem C10_db_hit_witness :
    redis_get [] ("embedding:" ++ (fun s => s) "hello") = none ∧
    List.find? (fun e => e.text_hash == (fun s => s) "hello") [liveEntry] = some liveEntry ∧
    ((get_cached_embedding (fun s => s) [] [liveEntry] "hello").1 = some liveEntry.embedding ∧
     (List.lookup ("embedding:" ++ (fun s => s) "hello")
        (get_cached_embedding (fun s => s) [] [liveEntry] "hello").2)
       = some ({ embedding := liveEntry.embedding, text := liveEntry.text_content,
                 model := liveEntry.model_name, cached_at := liveEntry.created_at },
               embedding_timeout) ∧
     get_cached_embedding (fun s => s)
        (get_cached_embedding (fun s => s) [] [liveEntry] "hello").2 [] "hello"
       = (some liveEntry.embedding,
          (get_cached_embedding (fun s => s) [] [liveEntry] "hello").2)) :=
  ⟨by decide, by decide,
   C10_db_hit_promoted_to_redis (fun s => s) [] [liveEntry] "hello" liveEntry
     (by decide) (by decide)⟩

/-! ## Query-cache key derivation

`OptimizedRAGService._get_query_cache_key` (md5 of the lowercased,
stripped question joined with the filters) and
`RAGService._get_query_cache_key` (Python's builtin `hash` of the raw
question joined with the filters — no normalisation).  `hashlib.md5` and
the builtin `hash` are external; they are parameters, and `pyHashModel`
is a concrete injective stand-in for the builtin `hash` (which is
additionally salted per process in CPython). -/

/-- Python's `str.strip()` as a `String` operation. -/
def py_strip_str (s : String) : String := String.mk (py_strip s.toList)

/-- Translation of `OptimizedRAGService._get_query_cache_key`:
`"rag_query_optimized:" + md5(f"{question.lower().strip()}:{ct or 'all'}:{sid or 'all'}")`.
(`None` and the falsy empty string are both modelled by `none`.) -/
def opt_query_cache_key (hash : String → String) (question : String)
    (context_type source_id : Option String) : String :=
  "rag_query_optimized:" ++
    hash (py_strip_str (py_lower question) ++ ":" ++ context_type.getD "all" ++ ":" ++
      source_id.getD "all")

/-- Translation of `RAGService._get_query_cache_key`:
`f"rag_query_{hash('_'.join([question, context_type or '', source_id or '']))}"` —
the raw question, with no normalisation. -/
def legacy_query_cache_key (pyHash : String → ℤ) (question : String)
    (context_type source_id : Option String) : String :=
  "rag_query_" ++
    toString (pyHash (String.intercalate "_"
      [question, context_type.getD "", source_id.getD ""]))

/-- A concrete, injective model of CPython's builtin string `hash`
(deterministic within one process; collision-free on these inputs). -/
def pyHashModel (s : String) : ℤ :=
  ((s.toList.foldl (fun a c => a * 1114112 + c.toNat) 0 : ℕ) : ℤ)

/-- C9 (amended): the optimized service's key derivation is a
deterministic function of the normalised (lowercased, stripped) question
and the filters: questions agreeing after normalisation give the same
key under any hash function. -/
theorem C9_optimized_key_normalises (hash : String → String) (q1 q2 : String)
    (context_type source_id : Option String)
    (h : py_strip_str (py_lower q1) = py_strip_str (py_lower q2)) :
    opt_query_cache_key hash q1 context_type source_id
      = opt_query_cache_key hash q2 context_type source_id := by
  unfold opt_query_cache_key
  rw [h]

/-- Closed instance of `C9_optimized_key_normalises`: `"  What Skills? "`
and `"what skills?"` produce the same optimized cache key. -/
theorem C9_optimized_key_witness :
    py_strip_str (py_lower "  What Skills? ") = py_strip_str (py_lower "what skills?") ∧
    opt_query_cache_key (fun s => s) "  What Skills? " none none
      = opt_query_cache_key (fun s => s) "what skills?" none none :=
  ⟨by decide,
   C9_optimized_key_normalises (fun s => s) "  What Skills? " "what skills?" none none
     (by decide)⟩

/-- C9 counterexample: the legacy `RAGService._get_query_cache_key` — one
of the two derivations the claim covers, and the one used by
`api/views.py` — does not normalise: `"Hi"` and `"hi"` differ only in
letter case (identical filters) yet produce different keys under the
(injective) model of Python's `hash`; the derivation hashes the raw
question, not the normalised one. -/
theorem C9_legacy_key_counterexample :
    py_strip_str (py_lower "Hi") = py_strip_str (py_lower "hi") ∧
    legacy_query_cache_key pyHashModel "Hi" none none
      ≠ legacy_query_cache_key pyHashModel "hi" none none := by
  constructor
  · decide
  · decide

/-! ## Content ingestion

Translated from `ContentProcessor._process_text_content` and
`ContentProcessor.process_profile_content`.  `chunk_text` returns a list
of *strings*, but `_process_text_content` reads `chunk_data['content']`,
`chunk_data['token_count']` and `chunk_data['chunk_index']` from each
element — indexing a `str` with a string key, which raises
`TypeError: string indices must be integers` on the first iteration,
inside `transaction.atomic`, so no chunk is ever written.  The profile's
`skills`/`experience`/`education` fields stand for the texts produced by
the `_format_*_for_processing` helpers (empty when the underlying list is
empty). -/

structure Profile where
  profile_id : String
  name : String
  bio : String
  skills : String
  experience : String
  education : String

structure IngestJob where
  source_type : String
  source_id : String
  source_title : String
  content : String
  status : String
  chunks_created : ℕ
  error_message : String

structure IngestState where
  chunks : List Chunk
  jobs : List IngestJob

structure IngestResult where
  success : Bool
  chunks_created : ℕ
  error : Option String

/-- Translation of `ContentProcessor._process_text_content`: chunk the text, then iterate
the chunk strings as if they were dicts.  A non-empty chunk list fails
immediately with the `TypeError`; an empty one creates nothing. -/
def process_text_content (tok : Tokenizer) (content : String) :
    Except String (List Chunk) :=
  match chunk_text tok content with
  | [] => .ok []
  | _ :: _ => .error "string indices must be integers"

/-- Process a list of section texts in order — the sequential
`if profile.<section>:` blocks of `process_profile_content` — stopping at
the first section whose processing raises, and summing the chunks
otherwise. -/
def process_sections_list (tok : Tokenizer) : List String → Except String (List Chunk)
  | [] => .ok []
  | t :: ts =>
    match process_text_content tok t with
    | .error e => .error e
    | .ok cs =>
      match process_sections_list tok ts with
      | .error e => .error e
      | .ok rest => .ok (cs ++ rest)

/-- The bio, skills, experience and education blocks of
`process_profile_content`, skipping falsy (empty) sections. -/
def process_profile_sections (tok : Tokenizer) (p : Profile) :
    Except String (List Chunk) :=
  process_sections_list tok
    ([p.bio, p.skills, p.experience, p.education].filter (fun t => t ≠ ""))

/-- Translation of `ContentProcessor.process_profile_content`: create the processing job,
process the sections, and either mark the job completed (recording the
chunks created) or catch the exception and mark the job failed. -/
def process_profile_content (tok : Tokenizer) (st : IngestState) (p : Profile) :
    IngestState × IngestResult :=
  match process_profile_sections tok p with
  | .ok cs =>
    ({ chunks := st.chunks ++ cs,
       jobs := st.jobs ++
         [{ source_type := "profile", source_id := p.profile_id,
            source_title := "Profile Content", content := p.bio,
            status := "completed", chunks_created := cs.length, error_message := "" }] },
     { success := true, chunks_created := cs.length, error := none })
  | .error e =>
    ({ chunks := st.chunks,
       jobs := st.jobs ++
         [{ source_type := "profile", source_id := p.profile_id,
            source_title := "Profile Content", content := p.bio,
            status := "failed", chunks_created := 0, error_message := e }] },
     { success := false, chunks_created := 0, error := some e })

theorem process_text_content_ok_nil {tok : Tokenizer} {content : String}
    {cs : List Chunk} (h : process_text_content tok content = .ok cs) : cs = [] := by
  unfold process_text_content at h
  split at h
  · cases h
    rfl
  · cases h

theorem process_sections_list_ok_nil {tok : Tokenizer} :
    ∀ {ts : List String} {cs : List Chunk},
      process_sections_list tok ts = .ok cs → cs = [] := by
  intro ts
  induction ts with
  | nil =>
    intro cs h
    cases h
    rfl
  | cons t ts ih =>
    intro cs h
    unfold process_sections_list at h
    split at h
    · cases h
    · next cs1 hcs1 =>
      split at h
      · cases h
      · next rest hrest =>
        cases h
        rw [process_text_content_ok_nil hcs1, ih hrest]
        rfl

/-- A profile with a non-empty bio: the failing ingestion input. -/
def demoProfile : Profile :=
  { profile_id := "p1", name := "Dev", bio := "hello", skills := "",
    experience := "", education := "" }

/-- C7: ingestion never writes any chunk — `_process_text_content` raises
`TypeError` on the first chunk of any non-empty text (its loop indexes the
chunk *strings* returned by `chunk_text` with dict keys), so
`process_profile_content` leaves the chunk store untouched; running it
twice leaves the store equal to running it once (both leave it unchanged),
but nothing is ever replaced: for the concrete profile with bio `"hello"`
the run reports `success = False` with the `TypeError` message and records
a failed job. -/
theorem C7_ingestion_writes_nothing (tok : Tokenizer) (st : IngestState) (p : Profile) :
    (process_profile_content tok st p).1.chunks = st.chunks ∧
    (process_profile_content tok
        (process_profile_content tok st p).1 p).1.chunks = st.chunks ∧
    (process_profile_content charTok ⟨[], []⟩ demoProfile).2.success = false ∧
    (process_profile_content charTok ⟨[], []⟩ demoProfile).2.error
      = some "string indices must be integers" ∧
    ((process_profile_content charTok ⟨[], []⟩ demoProfile).1.jobs.map
        fun j => j.status) = ["failed"] := by
  have key : ∀ st' : IngestState,
      (process_profile_content tok st' p).1.chunks = st'.chunks := by
    intro st'
    unfold process_profile_content
    split
    · next cs hok =>
      rw [process_sections_list_ok_nil hok]
      simp
    · simp
  refine ⟨key st, ?_, ?_, ?_, ?_⟩
  · rw [key _, key st]
  · decide
  · decide
  · decide

/-! ## The optimized query pipeline

Translated from `OptimizedRAGService.query`.  The external collaborators —
the query cache, the embedding API, the database candidate fetch, the chat
completion API, the cache write and the analytics log — are oracles
bundled in a `QueryEnv`.  `set_rag_query_cache` re-raises its exceptions
(`raise` in its handler), so a cache-write failure escapes to `query`'s
outer `except`, while `_generate_answer`, `_calculate_confidence` and
`_log_rag_query` swallow their own; the wall-clock `response_time` field
is not modelled. -/

/-- Constant `OptimizedRAGService.max_chunks` (5), used by the confidence formula. -/
def max_chunks_default : ℕ := 5

structure RagResponse where
  answer : String
  confidence : ℚ
  chunks_used : List ℕ
  chunks_retrieved : ℕ
  context_type : Option String
  source_id : Option String
  tokens_used : ℕ
  model_used : String

/-- Translation of `OptimizedRAGService._fallback_response`. -/
def fallback_response (message : String) : RagResponse :=
  { answer := message, confidence := 0, chunks_used := [], chunks_retrieved := 0,
    context_type := none, source_id := none, tokens_used := 0, model_used := "fallback" }

def not_configured_msg : String := "AI service is not configured. Please try again later."

def no_info_msg : String :=
  "I couldn\x27t find relevant information to answer your question."

def error_msg : String :=
  "I encountered an error while processing your question. Please try again."

/-- The fallback answer of `_generate_answer`'s own exception handler. -/
def gen_error_answer : String :=
  "I\x27m sorry, I encountered an error while generating a response. Please try again."

structure QueryEnv where
  /-- whether `settings.OPENAI_API_KEY` was present (`self.client`). -/
  client_configured : Bool
  /-- `cache_service.get_rag_query_cache(cache_key)`. -/
  cached : Option RagResponse
  /-- `embedding_service.create_embedding(question)`. -/
  embed : Except String (List ℝ)
  /-- the database candidate fetch (active chunks with embeddings, filtered
  and ordered by the ORM, already truncated to `limit * 3`). -/
  chunks : List Chunk
  /-- the chat-completion call: `(answer, total tokens)`. -/
  gen : Except String (String × ℕ)
  /-- whether `_calculate_confidence` ran without raising (its handler
  returns `0.5`). -/
  score_ok : Bool
  /-- `cache.set` inside `set_rag_query_cache` (re-raised on failure). -/
  cache_set : Except String Unit

/-- The search `optimized_similarity_search` including its embedding step: a raised
embedding error is caught by the search's own handler (returning `[]`),
and a falsy (empty) vector returns `[]` as well. -/
noncomputable def optimized_search_env (env : QueryEnv) (threshold : ℝ) (limit : ℕ) :
    List Chunk :=
  match env.embed with
  | .error _ => []
  | .ok qe => optimized_similarity_search qe env.chunks threshold limit

/-- Translation of `OptimizedRAGService._generate_answer`: the API answer and token
count, or the polite fallback with 0 tokens on any failure. -/
def generate_answer (env : QueryEnv) : String × ℕ :=
  match env.gen with
  | .ok r => r
  | .error _ => (gen_error_answer, 0)

/-- The body of `OptimizedRAGService.query` inside its `try:` — the only
uncaught exception source is the cache write. -/
noncomputable def query_body (env : QueryEnv) (context_type source_id : Option String)
    (maxChunks : ℕ) : Except String RagResponse :=
  if ¬ env.client_configured then .ok (fallback_response not_configured_msg)
  else
    match env.cached with
    | some r => .ok r
    | none =>
      let relevant := optimized_search_env env similarity_threshold maxChunks
      if relevant.isEmpty then .ok (fallback_response no_info_msg)
      else
        let ar := generate_answer env
        let confidence :=
          if env.score_ok
          then calculate_confidence ar.1 ar.2 relevant.length max_chunks_default
          else 1 / 2
        let response : RagResponse :=
          { answer := ar.1, confidence := confidence,
            chunks_used := relevant.map Chunk.chunk_id,
            chunks_retrieved := relevant.length,
            context_type := context_type, source_id := source_id,
            tokens_used := ar.2, model_used := "gpt-3.5-turbo" }
        match env.cache_set with
        | .error e => .error e
        | .ok _ => .ok response

/-- Translation of `OptimizedRAGService.query`: the body under the outer
`except Exception`, which turns any escaped exception into the fallback
response. -/
noncomputable def rag_query (env : QueryEnv) (context_type source_id : Option String)
    (maxChunks : ℕ) : RagResponse :=
  match query_body env context_type source_id maxChunks with
  | .ok r => r
  | .error _ => fallback_response error_msg

/-- C4 (amended): after a cache miss the query pipeline never propagates
an exception — `rag_query` always produces a response — and an
embedding/retrieval failure or a cache-write failure resolves to a
fallback response whose confidence is `0.0`.  (A *synthesis* failure
instead yields the polite fallback answer with a heuristically computed
confidence, and a *scoring* failure yields `0.5` — see the
counterexample.) -/
theorem C4_fallback_on_failure (env : QueryEnv) (context_type source_id : Option String)
    (maxChunks : ℕ) (hclient : env.client_configured = true)
    (hmiss : env.cached = none) :
    (∀ e, env.embed = .error e →
      rag_query env context_type source_id maxChunks = fallback_response no_info_msg) ∧
    (∀ e, env.cache_set = .error e →
      rag_query env context_type source_id maxChunks = fallback_response error_msg ∨
      rag_query env context_type source_id maxChunks = fallback_response no_info_msg) ∧
    (∀ m, (fallback_response m).confidence = 0) := by
  refine ⟨?_, ?_, fun m => rfl⟩
  · intro e he
    unfold rag_query query_body
    rw [hclient, hmiss]
    simp only [optimized_search_env, he]
    simp
  · intro e he
    unfold rag_query query_body
    rw [hclient, hmiss]
    simp only
    by_cases hrel : (optimized_search_env env similarity_threshold maxChunks).isEmpty
    · right
      simp [hrel]
    · left
      simp [hrel, he]

/-- An environment whose embedding step fails. -/
def envEmbedFail : QueryEnv :=
  { client_configured := true, cached := none, embed := .error "embedding api down",
    chunks := [], gen := .ok ("unused", 1), score_ok := true, cache_set := .ok () }

/-- Closed instance of `C4_fallback_on_failure`: an embedding failure
after a cache miss resolves to the no-information fallback with
confidence `0`. -/
theorem C4_fallback_witness :
    envEmbedFail.client_configured = true ∧ envEmbedFail.cached = none ∧
    rag_query envEmbedFail none none 5 = fallback_response no_info_msg ∧
    (fallback_response no_info_msg).confidence = 0 :=
  ⟨rfl, rfl,
   (C4_fallback_on_failure envEmbedFail none none 5 rfl rfl).1 "embedding api down" rfl,
   (C4_fallback_on_failure envEmbedFail none none 5 rfl rfl).2.2 no_info_msg⟩

/-- The single retrieved chunk of the `C4` counterexample. -/
def chunkBio : Chunk :=
  { chunk_id := 7, content := "bio text", embedding := [1],
    source_type := "profile", source_id := "p1", source_title := "Bio" }

/-- An environment where everything succeeds except the synthesis (chat
completion) call. -/
def envSynthFail : QueryEnv :=
  { client_configured := true, cached := none, embed := .ok [1],
    chunks := [chunkBio], gen := .error "upstream error", score_ok := true,
    cache_set := .ok () }

/-- C4 counterexample: when the *synthesis* step fails after a cache miss
(one relevant chunk retrieved, generation API down), the pipeline does
return the polite fallback answer, but its confidence is the heuristic
`0.64` — not `0.0` as the claim requires for every failing step. -/
theorem C4_synthesis_failure_counterexample :
    envSynthFail.cached = none ∧
    envSynthFail.gen = .error "upstream error" ∧
    (rag_query envSynthFail none none 5).answer = gen_error_answer ∧
    (rag_query envSynthFail none none 5).confidence = 16 / 25 ∧
    (rag_query envSynthFail none none 5).confidence ≠ 0 := by
  have hsim : batch_row_similarity [(1 : ℝ)] [(1 : ℝ)] = 1 := by
    have hdot : dotl [(1 : ℝ)] [(1 : ℝ)] = 1 := by simp [dotl]
    have hn : norml [(1 : ℝ)] = 1 := by
      unfold norml
      rw [hdot, Real.sqrt_one]
    unfold batch_row_similarity
    rw [hdot, hn]
    norm_num
  have hbatch : batch_calculate_similarities [(1 : ℝ)] [chunkBio] = [(chunkBio, 1)] := by
    rw [batch_calculate_similarities_eq]
    simp [List.filter, valid_chunk, chunkBio, hsim]
  have hd : (decide (similarity_threshold ≤ (1 : ℝ))) = true :=
    decide_eq_true (by norm_num [similarity_threshold])
  have hscored : optimized_search_scored [(1 : ℝ)] [chunkBio] similarity_threshold 5
      = [(chunkBio, 1)] := by
    unfold optimized_search_scored
    rw [if_neg (by simp)]
    rw [hbatch]
    simp only [List.filter, hd]
    rw [List.mergeSort_singleton]
    rfl
  have hsearch : optimized_similarity_search [(1 : ℝ)] [chunkBio] similarity_threshold 5
      = [chunkBio] := by
    unfold optimized_similarity_search
    rw [if_neg (by simp), hscored]
    rfl
  have henv : optimized_search_env envSynthFail similarity_threshold 5 = [chunkBio] := by
    unfold optimized_search_env
    show optimized_similarity_search [(1 : ℝ)] [chunkBio] similarity_threshold 5 = [chunkBio]
    exact hsearch
  have hq : rag_query envSynthFail none none 5 =
      { answer := gen_error_answer,
        confidence := calculate_confidence gen_error_answer 0 1 max_chunks_default,
        chunks_used := [7], chunks_retrieved := 1,
        context_type := none, source_id := none,
        tokens_used := 0, model_used := "gpt-3.5-turbo" } := by
    unfold rag_query query_body
    rw [show envSynthFail.client_configured = true from rfl,
      show envSynthFail.cached = none from rfl]
    simp only [henv]
    rw [show generate_answer envSynthFail = (gen_error_answer, 0) from rfl,
      show envSynthFail.score_ok = true from rfl]
    simp [chunkBio]
    rfl
  have hlen : gen_error_answer.length = 80 := by decide
  have hind : contains_indicator (py_lower gen_error_answer) = false := by decide
  have hconf : calculate_confidence gen_error_answer 0 1 max_chunks_default = 16 / 25 := by
    norm_num [calculate_confidence, round2, hlen, hind, max_chunks_default, round_eq]
  refine ⟨rfl, rfl, by rw [hq], by rw [hq]; exact hconf, by rw [hq]; rw [hconf]; norm_num⟩
